import Mathlib

/-!
Shallow embedding of `parking_rate.py`.

Python naive `datetime` values are modelled as an absolute count of
microseconds since a reference midnight; day 0 of the timeline is taken to
be a Monday, so the Python `weekday()` value (Monday = 0 … Sunday = 6) is
the day index mod 7.  `timedelta` subtraction is modelled on `Int`
microseconds with Python's floor-based normalisation (`days` may be
negative, the `seconds` component lies in `[0, 86400)`).  Python `float`
currency arithmetic is modelled in `ℚ`; every rate in the source is a small
multiple of 0.5, so the float arithmetic performed by the source is exact
on all values reached here.  The bare-string `raise` in `get_parking_fee`
is modelled as `Except.error` carrying the raised string value.
-/

namespace ParkingRate

def usPerSecond : Nat := 1000000

def usPerDay : Nat := 86400000000

/-- `timedelta.days` of a difference of `us` microseconds (Python floor division). -/
def tdDays (us : Int) : Int := Int.fdiv us (usPerDay : Int)

/-- `timedelta.seconds` of a difference of `us` microseconds: the whole-seconds
part after normalisation, always in `[0, 86400)`. -/
def tdSeconds (us : Int) : Nat := (Int.fmod us ((usPerDay : Int))).toNat / usPerSecond

/-- `datetime.date()` as a day index. -/
def dateOf (t : Nat) : Nat := t / usPerDay

/-- `datetime.hour`. -/
def hourOf (t : Nat) : Nat := t % usPerDay / (3600 * usPerSecond)

/-- `datetime.minute`. -/
def minuteOf (t : Nat) : Nat := t % usPerDay % (3600 * usPerSecond) / (60 * usPerSecond)

/-- `datetime.weekday()`: Monday = 0 … Sunday = 6 (day 0 of the timeline is a Monday). -/
def weekday (t : Nat) : Nat := dateOf t % 7

/-- `calendar.day_name[w]` for `w = weekday(...)`. -/
def day_name (w : Nat) : String :=
  match w with
  | 0 => "Monday"
  | 1 => "Tuesday"
  | 2 => "Wednesday"
  | 3 => "Thursday"
  | 4 => "Friday"
  | 5 => "Saturday"
  | _ => "Sunday"

/-- Build an instant from day index, time of day and sub-second part. -/
def instant (day hour minute second micro : Nat) : Nat :=
  day * usPerDay + (hour * 3600 + minute * 60 + second) * usPerSecond + micro

structure DurationHM where
  hours : Nat
  minutes : Nat
deriving DecidableEq, Repr

structure DurationDHM where
  days : Int
  hours : Nat
  minutes : Nat
deriving DecidableEq, Repr

/-- The duration dictionary built by `get_duration`: the `first_day` and
`remaining` keys are present exactly when the calendar date changed. -/
structure DurationDict where
  overall : DurationDHM
  first_day : Option DurationHM
  remaining : Option DurationHM
deriving DecidableEq, Repr

/-- One iteration of the elapsed-day loop of `get_duration` (index `i`,
running counters `acc`); the first index (`idx = 0`, the entry date itself)
is excluded from both counters. -/
def elapsed_step (tin : Nat) (acc : Nat × Nat) (i : Nat) : Nat × Nat :=
  let day := day_name (weekday (tin + i * usPerDay))
  let is_weekend : Bool := day == "Saturday" || day == "Sunday"
  if i ≠ 0 then
    if is_weekend then (acc.1, acc.2 + 1) else (acc.1 + 1, acc.2)
  else acc

/-- The elapsed-day loop `for idx, i in enumerate(range(days))` of
`get_duration`, returning `(elapsed_weekday_count, elapsed_weekend_count)`. -/
def elapsed_counts (tin : Nat) (days : Nat) : Nat × Nat :=
  (List.range days).foldl (elapsed_step tin) (0, 0)

/-- `get_duration(then, now)` from `parking_rate.py`: returns the duration
dictionary plus the elapsed weekday/weekend counts.  Note that the source
builds `next_day` as `datetime(next_date.year, next_date.month,
next_date.day, 0, 1, 0)`, i.e. **one minute past** midnight of the day
after `then`. -/
def get_duration (tin tout : Nat) : DurationDict × Nat × Nat :=
  let dur : Int := (tout : Int) - (tin : Int)
  let days := tdDays dur
  let hours := tdSeconds dur / 3600
  let minutes := tdSeconds dur % 3600 / 60
  let overall : DurationDHM := ⟨days, hours, minutes⟩
  let dd : DurationDict :=
    if dateOf tin = dateOf tout then
      ⟨overall, none, none⟩
    else
      let next_day : Nat := (dateOf tin + 1) * usPerDay + 60 * usPerSecond
      let dfd : Int := (next_day : Int) - (tin : Int)
      let fd : DurationHM := ⟨tdSeconds dfd / 3600, tdSeconds dfd % 3600 / 60⟩
      let rem : DurationHM := ⟨hourOf tout, minuteOf tout⟩
      ⟨overall, some fd, some rem⟩
  let counts := elapsed_counts tin days.toNat
  (dd, counts.1, counts.2)

def first_n_hours : Nat := 3

def free_of_charge_minutes : Nat := 15

def grace_period_minutes : Nat := 5

def weekday_first_n_hours_rate : ℚ := 3

def weekday_subsequent_hours : ℚ := 3 / 2

def weekday_max_charge_per_day : ℚ := 20

def weekend_first_n_hours_rate : ℚ := 5

def weekend_subsequent_hours : ℚ := 2

def weekend_max_charge_per_day : ℚ := 40

/-- The hour-tier part of the first-segment fee (`parking_rate.py` lines
125–138), before the grace-period surcharge and before the daily cap. -/
def tier_fee (rate sub : ℚ) (hours minutes : Nat) : ℚ :=
  if hours > first_n_hours then
    rate + sub * ((hours : ℚ) - (first_n_hours : ℚ))
  else if hours = first_n_hours then
    rate
  else if hours < first_n_hours then
    if hours < 1 then
      if minutes > free_of_charge_minutes then sub else 0
    else
      sub * (hours : ℚ)
  else
    sub * (hours : ℚ)

/-- The grace-period surcharge (`parking_rate.py` lines 141–143 and 153–155):
one `sub` unit when the hour part is ≥ 1 and the minute part exceeds the
grace period. -/
def grace_fee (sub : ℚ) (hours minutes : Nat) : ℚ :=
  if hours ≥ 1 then
    if minutes > grace_period_minutes then sub else 0
  else 0

/-- `if fee > max_rate: fee = max_rate`. -/
def cap_at (fee mx : ℚ) : ℚ := if fee > mx then mx else fee

/-- The first-segment fee: hour tier, then grace surcharge, then the cap at
the entry-side daily maximum (`parking_rate.py` lines 124–147). -/
def first_day_fee (time_in_weekday : Bool) (hours minutes : Nat) : ℚ :=
  let rate := if time_in_weekday then weekday_first_n_hours_rate else weekend_first_n_hours_rate
  let sub := if time_in_weekday then weekday_subsequent_hours else weekend_subsequent_hours
  let mx := if time_in_weekday then weekday_max_charge_per_day else weekend_max_charge_per_day
  cap_at (tier_fee rate sub hours minutes + grace_fee sub hours minutes) mx

/-- The remaining-segment fee (`parking_rate.py` lines 149–160): zero when
the `remaining` key is absent, otherwise hours × exit-side subsequent rate,
plus grace surcharge, capped at the exit-side daily maximum. -/
def remaining_fee (time_out_weekday : Bool) : Option DurationHM → ℚ
  | none => 0
  | some r =>
    let sub := if time_out_weekday then weekday_subsequent_hours else weekend_subsequent_hours
    let mx := if time_out_weekday then weekday_max_charge_per_day else weekend_max_charge_per_day
    cap_at ((r.hours : ℚ) * sub + grace_fee sub r.hours r.minutes) mx

/-- The elapsed full-day fee (`parking_rate.py` lines 110–114): each fully
elapsed day billed at its own day-type's daily cap. -/
def elapsed_days_fee (weekday_count weekend_count : Nat) : ℚ :=
  if weekday_count ≠ 0 ∨ weekend_count ≠ 0 then
    (weekday_count : ℚ) * weekday_max_charge_per_day
      + (weekend_count : ℚ) * weekend_max_charge_per_day
  else 0

/-- Which (hours, minutes) the first-segment tier prices: the `first_day`
entry when a date boundary was crossed, else the `overall` duration
(`parking_rate.py` lines 116–122). -/
def first_segment_hm (dd : DurationDict) : Nat × Nat :=
  match dd.first_day with
  | some fd => (fd.hours, fd.minutes)
  | none => (dd.overall.hours, dd.overall.minutes)

/-- `calculate_fee` from `parking_rate.py` (lines 58–165). -/
def calculate_fee (dd : DurationDict) (weekday_count weekend_count : Nat)
    (time_in_weekday time_out_weekday : Bool) : ℚ :=
  first_day_fee time_in_weekday (first_segment_hm dd).1 (first_segment_hm dd).2
    + elapsed_days_fee weekday_count weekend_count
    + remaining_fee time_out_weekday dd.remaining

/-- The duration-label construction of `get_parking_fee`
(`parking_rate.py` lines 193–203). -/
def duration_str (o : DurationDHM) : String :=
  let total_hours : Int := o.days * 24 + (o.hours : Int)
  if 1 ≤ total_hours ∧ total_hours < 24 then
    toString o.hours ++ " hours " ++ toString o.minutes ++ " minutes"
  else if total_hours < 1 then
    toString o.minutes ++ " minutes"
  else
    toString total_hours ++ " hours"

/-- `get_parking_fee` from `parking_rate.py` (lines 168–205).  The source
executes `raise "Time out date should not be smaller than time in"` (a bare
string, not an exception class); this failure path is modelled as
`Except.error` carrying that string. -/
def get_parking_fee (time_in time_out : Nat) : Except String (String × ℚ) :=
  let elapsed : Int := (time_out : Int) - (time_in : Int)
  if tdDays elapsed < 0 then
    Except.error "Time out date should not be smaller than time in"
  else
    let r := get_duration time_in time_out
    let time_in_weekday : Bool := if weekday time_in < 5 then true else false
    let time_out_weekday : Bool := if weekday time_out < 5 then true else false
    let total_fee := calculate_fee r.1 r.2.1 r.2.2 time_in_weekday time_out_weekday
    Except.ok (duration_str r.1.overall, total_fee)

/-! ### Basic facts about the timedelta normalisation -/

lemma usPerDay_pos : 0 < ((usPerDay : Nat) : Int) := by norm_num [usPerDay]

lemma tdSeconds_lt_86400 (us : Int) : tdSeconds us < 86400 := by
  have h0 : 0 ≤ Int.fmod us ((usPerDay : Nat) : Int) := Int.fmod_nonneg' us usPerDay_pos
  have h1 : Int.fmod us ((usPerDay : Nat) : Int) < ((usPerDay : Nat) : Int) :=
    Int.fmod_lt_of_pos us usPerDay_pos
  simp only [tdSeconds, usPerSecond, usPerDay] at *
  omega

lemma tdDays_nonneg {us : Int} (h : 0 ≤ us) : 0 ≤ tdDays us :=
  Int.fdiv_nonneg h (le_of_lt usPerDay_pos)

lemma tdDays_neg_iff {us : Int} : tdDays us < 0 ↔ us < 0 := by
  constructor
  · intro h
    by_contra hc
    exact absurd (tdDays_nonneg (not_lt.mp hc)) (not_le.mpr h)
  · intro h
    exact Int.fdiv_neg' h usPerDay_pos

/-- The `overall` entry of the duration dictionary, independent of whether the
date-boundary branch was taken. -/
lemma get_duration_overall (t1 t2 : Nat) :
    (get_duration t1 t2).1.overall =
      ⟨tdDays ((t2 : Int) - (t1 : Int)), tdSeconds ((t2 : Int) - (t1 : Int)) / 3600,
       tdSeconds ((t2 : Int) - (t1 : Int)) % 3600 / 60⟩ := by
  simp only [get_duration]
  split <;> rfl

/-- The elapsed-day counters returned by `get_duration` come from the loop
`elapsed_counts`, run for `overall.days` iterations. -/
lemma get_duration_counts (t1 t2 : Nat) :
    (get_duration t1 t2).2 = elapsed_counts t1 (tdDays ((t2 : Int) - (t1 : Int))).toNat := by
  simp only [get_duration]

/-- Claim C8: for every `entry ≤ exit` the overall duration is normalised:
`days ≥ 0`, `hours < 24`, `minutes < 60`, with `days` the integral day count
of the raw difference, `hours` the remaining seconds divided by 3600 and
`minutes` the remainder divided by 60 (sub-minute residue dropped). -/
theorem overall_duration_normalized (t1 t2 : Nat) (h : t1 ≤ t2) :
    0 ≤ (get_duration t1 t2).1.overall.days ∧
    (get_duration t1 t2).1.overall.hours < 24 ∧
    (get_duration t1 t2).1.overall.minutes < 60 ∧
    (get_duration t1 t2).1.overall =
      ⟨tdDays ((t2 : Int) - (t1 : Int)), tdSeconds ((t2 : Int) - (t1 : Int)) / 3600,
       tdSeconds ((t2 : Int) - (t1 : Int)) % 3600 / 60⟩ := by
  have hs := tdSeconds_lt_86400 ((t2 : Int) - (t1 : Int))
  refine ⟨?_, ?_, ?_, get_duration_overall t1 t2⟩ <;>
    simp only [get_duration_overall t1 t2]
  · exact tdDays_nonneg (by omega)
  · omega
  · omega

theorem overall_duration_normalized_witness :
    (get_duration (instant 0 8 0 0 0) (instant 2 10 0 0 0)).1.overall.hours < 24 :=
  (overall_duration_normalized (instant 0 8 0 0 0) (instant 2 10 0 0 0) (by decide)).2.1

/-- Claim C3: the orchestrator fails exactly when `exit < entry`, by raising
the bare string `"Time out date should not be smaller than time in"` (the
source's `raise` of a string value, modelled as `Except.error`); for
`entry ≤ exit` it always returns a result, so no other error is ever
raised. -/
theorem invalid_range_raises (t1 t2 : Nat) :
    (t2 < t1 → get_parking_fee t1 t2 =
      Except.error "Time out date should not be smaller than time in") ∧
    (t1 ≤ t2 → ∃ out, get_parking_fee t1 t2 = Except.ok out) := by
  constructor
  · intro h
    have hneg : tdDays ((t2 : Int) - (t1 : Int)) < 0 := tdDays_neg_iff.mpr (by omega)
    simp only [get_parking_fee]
    rw [if_pos hneg]
  · intro h
    have hpos : ¬ tdDays ((t2 : Int) - (t1 : Int)) < 0 :=
      not_lt.mpr (tdDays_nonneg (by omega))
    refine ⟨(duration_str (get_duration t1 t2).1.overall,
      calculate_fee (get_duration t1 t2).1 (get_duration t1 t2).2.1 (get_duration t1 t2).2.2
        (if weekday t1 < 5 then true else false) (if weekday t2 < 5 then true else false)), ?_⟩
    simp only [get_parking_fee]
    rw [if_neg hpos]

theorem invalid_range_raises_witness :
    get_parking_fee (instant 1 0 0 0 0) (instant 0 10 0 0 0) =
      Except.error "Time out date should not be smaller than time in" :=
  (invalid_range_raises (instant 1 0 0 0 0) (instant 0 10 0 0 0)).1 (by decide)

/-! ### The elapsed-day loop -/

lemma dateOf_add_mul_usPerDay (t i : Nat) : dateOf (t + i * usPerDay) = dateOf t + i := by
  simp only [dateOf, usPerDay]
  omega

lemma weekday_add_mul_usPerDay (t i : Nat) :
    weekday (t + i * usPerDay) = (dateOf t + i) % 7 := by
  simp only [weekday, dateOf_add_mul_usPerDay]

lemma day_name_weekend_bool (w : Nat) (hw : w < 7) :
    (day_name w == "Saturday" || day_name w == "Sunday") = decide (5 ≤ w) := by
  interval_cases w <;> rfl

/-- One loop iteration, re-expressed arithmetically: index 0 (the entry date)
is skipped; otherwise the weekend counter is bumped when the day-of-week of
`entry.date + i` is Saturday or Sunday, else the weekday counter. -/
lemma elapsed_step_eq (tin : Nat) (acc : Nat × Nat) (i : Nat) :
    elapsed_step tin acc i =
      if i ≠ 0 then
        (if 5 ≤ (dateOf tin + i) % 7 then (acc.1, acc.2 + 1) else (acc.1 + 1, acc.2))
      else acc := by
  simp only [elapsed_step, weekday_add_mul_usPerDay]
  rw [day_name_weekend_bool _ (Nat.mod_lt _ (by norm_num))]
  by_cases hw : 5 ≤ (dateOf tin + i) % 7
  · simp [hw]
  · simp [hw]

lemma elapsed_counts_succ (tin n : Nat) :
    elapsed_counts tin (n + 1) = elapsed_step tin (elapsed_counts tin n) n := by
  simp only [elapsed_counts]
  rw [List.range_succ, List.foldl_append, List.foldl_cons, List.foldl_nil]

/-- The loop counts exactly the indices `1 ≤ i < n`, split by day-of-week of
`entry.date + i`. -/
lemma elapsed_counts_eq_card (tin : Nat) (n : Nat) :
    elapsed_counts tin n =
      (((Finset.range n).filter fun i => 1 ≤ i ∧ (dateOf tin + i) % 7 < 5).card,
       ((Finset.range n).filter fun i => 1 ≤ i ∧ 5 ≤ (dateOf tin + i) % 7).card) := by
  induction n with
  | zero => rfl
  | succ n ih =>
    rw [elapsed_counts_succ, ih, elapsed_step_eq]
    rw [Finset.range_succ, Finset.filter_insert, Finset.filter_insert]
    by_cases hn : n = 0
    · subst hn
      rw [if_neg (by omega), if_neg (by omega)]
      simp
    · by_cases hw : 5 ≤ (dateOf tin + n) % 7
      · have hpn : ¬(1 ≤ n ∧ (dateOf tin + n) % 7 < 5) := by omega
        have hpw : 1 ≤ n ∧ 5 ≤ (dateOf tin + n) % 7 := by omega
        rw [if_neg hpn, if_pos hpw, Finset.card_insert_of_not_mem (by simp)]
        simp [hn, hw]
      · have hpn : 1 ≤ n ∧ (dateOf tin + n) % 7 < 5 := by omega
        have hpw : ¬(1 ≤ n ∧ 5 ≤ (dateOf tin + n) % 7) := by omega
        rw [if_pos hpn, if_neg hpw, Finset.card_insert_of_not_mem (by simp)]
        simp [hn, hw]

lemma filter_day_split_card (d : Nat) (n : Nat) :
    ((Finset.range n).filter fun i => 1 ≤ i ∧ (d + i) % 7 < 5).card +
    ((Finset.range n).filter fun i => 1 ≤ i ∧ 5 ≤ (d + i) % 7).card = n - 1 := by
  induction n with
  | zero => simp
  | succ n ih =>
    rw [Finset.range_succ, Finset.filter_insert, Finset.filter_insert]
    by_cases hn : n = 0
    · subst hn
      rw [if_neg (by omega), if_neg (by omega)]
      simp
    · by_cases hw : 5 ≤ (d + n) % 7
      · rw [if_neg (by omega), if_pos (by omega),
          Finset.card_insert_of_not_mem (by simp)]
        omega
      · rw [if_pos (by omega), if_neg (by omega),
          Finset.card_insert_of_not_mem (by simp)]
        omega

/-- Claim C4: for every `entry ≤ exit` the elapsed-day counts classify
exactly the calendar days `entry.date + 1 … entry.date + (overall.days − 1)`
by day-of-week (Saturday/Sunday, i.e. day-of-week index ≥ 5 with Monday = 0,
counted as weekend, the rest as weekday); hence the counts sum to
`overall.days − 1` when `overall.days ≥ 1` and are both 0 when
`overall.days = 0`. -/
theorem elapsed_day_counts_spec (t1 t2 : Nat) (h : t1 ≤ t2) :
    (get_duration t1 t2).2.1 =
      ((Finset.range (get_duration t1 t2).1.overall.days.toNat).filter
        fun i => 1 ≤ i ∧ (dateOf t1 + i) % 7 < 5).card ∧
    (get_duration t1 t2).2.2 =
      ((Finset.range (get_duration t1 t2).1.overall.days.toNat).filter
        fun i => 1 ≤ i ∧ 5 ≤ (dateOf t1 + i) % 7).card ∧
    (get_duration t1 t2).2.1 + (get_duration t1 t2).2.2 =
      (get_duration t1 t2).1.overall.days.toNat - 1 ∧
    ((get_duration t1 t2).1.overall.days = 0 →
      (get_duration t1 t2).2.1 = 0 ∧ (get_duration t1 t2).2.2 = 0) := by
  have hdays : (get_duration t1 t2).1.overall.days = tdDays ((t2 : Int) - (t1 : Int)) := by
    rw [get_duration_overall]
  have hct := get_duration_counts t1 t2
  rw [elapsed_counts_eq_card] at hct
  have h1 : (get_duration t1 t2).2.1 =
      ((Finset.range (tdDays ((t2 : Int) - (t1 : Int))).toNat).filter
        fun i => 1 ≤ i ∧ (dateOf t1 + i) % 7 < 5).card := congrArg Prod.fst hct
  have h2 : (get_duration t1 t2).2.2 =
      ((Finset.range (tdDays ((t2 : Int) - (t1 : Int))).toNat).filter
        fun i => 1 ≤ i ∧ 5 ≤ (dateOf t1 + i) % 7).card := congrArg Prod.snd hct
  refine ⟨by rw [hdays, h1], by rw [hdays, h2], ?_, ?_⟩
  · rw [hdays, h1, h2]
    exact filter_day_split_card (dateOf t1) _
  · intro h0
    rw [hdays] at h0
    rw [h1, h2, h0]
    simp

theorem elapsed_day_counts_spec_witness :
    (get_duration (instant 0 8 0 0 0) (instant 2 10 0 0 0)).2.1 = 1 := by
  have h := (elapsed_day_counts_spec (instant 0 8 0 0 0) (instant 2 10 0 0 0) (by decide)).1
  rw [h]
  decide

/-! ### Fee-calculator properties -/

lemma cap_at_le (f mx : ℚ) : cap_at f mx ≤ mx := by
  unfold cap_at
  by_cases h : f > mx
  · rw [if_pos h]
  · rw [if_neg h]
    exact le_of_not_lt h

lemma grace_fee_eq (s : ℚ) (hours minutes : Nat) :
    grace_fee s hours minutes = if 1 ≤ hours ∧ 5 < minutes then s else 0 := by
  unfold grace_fee grace_period_minutes
  by_cases h1 : 1 ≤ hours <;> by_cases h2 : 5 < minutes <;> simp [h1, h2]

/-- Claim C5: the first-segment fee never exceeds the entry-side daily
maximum and the remaining-segment fee never exceeds the exit-side daily
maximum, for any duration; and the first-segment cap is applied to the sum
of the hour-tier fee and the grace-period surcharge (i.e. after the
surcharge). -/
theorem segment_fees_capped (hours minutes : Nat) (rem : Option DurationHM)
    (time_in_weekday time_out_weekday : Bool) :
    first_day_fee time_in_weekday hours minutes ≤
      (if time_in_weekday then weekday_max_charge_per_day else weekend_max_charge_per_day) ∧
    remaining_fee time_out_weekday rem ≤
      (if time_out_weekday then weekday_max_charge_per_day else weekend_max_charge_per_day) ∧
    first_day_fee time_in_weekday hours minutes =
      cap_at
        (tier_fee
            (if time_in_weekday then weekday_first_n_hours_rate else weekend_first_n_hours_rate)
            (if time_in_weekday then weekday_subsequent_hours else weekend_subsequent_hours)
            hours minutes
          + grace_fee
              (if time_in_weekday then weekday_subsequent_hours else weekend_subsequent_hours)
              hours minutes)
        (if time_in_weekday then weekday_max_charge_per_day else weekend_max_charge_per_day) := by
  refine ⟨cap_at_le _ _, ?_, rfl⟩
  cases rem with
  | none =>
    cases time_out_weekday <;>
      norm_num [remaining_fee, weekday_max_charge_per_day, weekend_max_charge_per_day]
  | some r => exact cap_at_le _ _

/-- Claim C6: the hour tier of the first-segment fee: for `hours > 3` it is
`rate + sub × (hours − 3)`; for `hours = 3` exactly `rate`; for
`1 ≤ hours < 3` it is `sub × hours`; for `hours < 1` it is one `sub` unit
when `minutes > 15` and 0 otherwise; and the grace surcharge adds one `sub`
unit exactly when `hours ≥ 1` and `minutes > 5`. -/
theorem first_segment_tier_structure (time_in_weekday : Bool) (hours minutes : Nat) :
    (3 < hours →
      tier_fee
        (if time_in_weekday then weekday_first_n_hours_rate else weekend_first_n_hours_rate)
        (if time_in_weekday then weekday_subsequent_hours else weekend_subsequent_hours)
        hours minutes =
      (if time_in_weekday then weekday_first_n_hours_rate else weekend_first_n_hours_rate)
        + (if time_in_weekday then weekday_subsequent_hours else weekend_subsequent_hours)
          * ((hours : ℚ) - 3)) ∧
    (hours = 3 →
      tier_fee
        (if time_in_weekday then weekday_first_n_hours_rate else weekend_first_n_hours_rate)
        (if time_in_weekday then weekday_subsequent_hours else weekend_subsequent_hours)
        hours minutes =
      (if time_in_weekday then weekday_first_n_hours_rate else weekend_first_n_hours_rate)) ∧
    (1 ≤ hours → hours < 3 →
      tier_fee
        (if time_in_weekday then weekday_first_n_hours_rate else weekend_first_n_hours_rate)
        (if time_in_weekday then weekday_subsequent_hours else weekend_subsequent_hours)
        hours minutes =
      (if time_in_weekday then weekday_subsequent_hours else weekend_subsequent_hours)
        * (hours : ℚ)) ∧
    (hours < 1 → 15 < minutes →
      tier_fee
        (if time_in_weekday then weekday_first_n_hours_rate else weekend_first_n_hours_rate)
        (if time_in_weekday then weekday_subsequent_hours else weekend_subsequent_hours)
        hours minutes =
      (if time_in_weekday then weekday_subsequent_hours else weekend_subsequent_hours)) ∧
    (hours < 1 → minutes ≤ 15 →
      tier_fee
        (if time_in_weekday then weekday_first_n_hours_rate else weekend_first_n_hours_rate)
        (if time_in_weekday then weekday_subsequent_hours else weekend_subsequent_hours)
        hours minutes = 0) ∧
    (1 ≤ hours → 5 < minutes →
      grace_fee
        (if time_in_weekday then weekday_subsequent_hours else weekend_subsequent_hours)
        hours minutes =
      (if time_in_weekday then weekday_subsequent_hours else weekend_subsequent_hours)) ∧
    (hours < 1 ∨ minutes ≤ 5 →
      grace_fee
        (if time_in_weekday then weekday_subsequent_hours else weekend_subsequent_hours)
        hours minutes = 0) := by
  refine ⟨?_, ?_, ?_, ?_, ?_, ?_, ?_⟩
  · intro h3
    unfold tier_fee first_n_hours
    rw [if_pos h3]
    norm_num
  · intro h3
    subst h3
    unfold tier_fee first_n_hours
    norm_num
  · intro h1 h3
    unfold tier_fee first_n_hours
    rw [if_neg (by omega), if_neg (by omega), if_pos h3, if_neg (by omega)]
  · intro h1 h15
    unfold tier_fee first_n_hours free_of_charge_minutes
    rw [if_neg (by omega), if_neg (by omega), if_pos (by omega), if_pos (by omega),
      if_pos h15]
  · intro h1 h15
    unfold tier_fee first_n_hours free_of_charge_minutes
    rw [if_neg (by omega), if_neg (by omega), if_pos (by omega), if_pos (by omega),
      if_neg (by omega)]
  · intro h1 h5
    rw [grace_fee_eq, if_pos ⟨h1, h5⟩]
  · intro hor
    rw [grace_fee_eq, if_neg (by omega)]

theorem first_segment_tier_structure_witness :
    tier_fee (if true then weekday_first_n_hours_rate else weekend_first_n_hours_rate)
      (if true then weekday_subsequent_hours else weekend_subsequent_hours) 5 10 =
    (if true then weekday_first_n_hours_rate else weekend_first_n_hours_rate)
      + (if true then weekday_subsequent_hours else weekend_subsequent_hours) * ((5 : ℚ) - 3) :=
  (first_segment_tier_structure true 5 10).1 (by norm_num)

/-- Claim C7: when a date boundary is crossed the `remaining` entry is
exit's wall-clock hour and minute; its fee is `hours × exit-side subsequent
rate` plus one extra unit when `hours ≥ 1 ∧ minutes > 5`, capped at the
exit-side daily maximum; when no boundary is crossed the `remaining` entry
is absent and its fee is exactly 0. -/
theorem remaining_segment_spec (t1 t2 : Nat) (r : DurationHM) (time_out_weekday : Bool) :
    (dateOf t1 ≠ dateOf t2 →
      (get_duration t1 t2).1.remaining = some ⟨hourOf t2, minuteOf t2⟩) ∧
    (dateOf t1 = dateOf t2 → (get_duration t1 t2).1.remaining = none) ∧
    remaining_fee time_out_weekday none = 0 ∧
    remaining_fee time_out_weekday (some r) =
      cap_at
        ((r.hours : ℚ) * (if time_out_weekday then weekday_subsequent_hours else weekend_subsequent_hours)
          + (if 1 ≤ r.hours ∧ 5 < r.minutes then
              (if time_out_weekday then weekday_subsequent_hours else weekend_subsequent_hours)
            else 0))
        (if time_out_weekday then weekday_max_charge_per_day else weekend_max_charge_per_day) := by
  refine ⟨?_, ?_, rfl, ?_⟩
  · intro hne
    simp only [get_duration]
    rw [if_neg hne]
  · intro heq
    simp only [get_duration]
    rw [if_pos heq]
  · simp only [remaining_fee]
    rw [grace_fee_eq]

theorem remaining_segment_spec_witness :
    (get_duration (instant 0 8 0 0 0) (instant 1 10 0 0 0)).1.remaining =
      some ⟨hourOf (instant 1 10 0 0 0), minuteOf (instant 1 10 0 0 0)⟩ :=
  (remaining_segment_spec (instant 0 8 0 0 0) (instant 1 10 0 0 0) ⟨10, 0⟩ true).1 (by decide)

/-! ### Orchestrator: label and end-to-end scenarios -/

lemma duration_str_cases (o : DurationDHM) :
    (1 ≤ o.days * 24 + (o.hours : Int) ∧ o.days * 24 + (o.hours : Int) < 24 →
      duration_str o = toString o.hours ++ " hours " ++ toString o.minutes ++ " minutes") ∧
    (o.days * 24 + (o.hours : Int) < 1 →
      duration_str o = toString o.minutes ++ " minutes") ∧
    (24 ≤ o.days * 24 + (o.hours : Int) →
      duration_str o = toString (o.days * 24 + (o.hours : Int)) ++ " hours") := by
  refine ⟨?_, ?_, ?_⟩
  · intro hc
    simp only [duration_str]
    rw [if_pos hc]
  · intro hc
    simp only [duration_str]
    rw [if_neg (by omega), if_pos hc]
  · intro hc
    simp only [duration_str]
    rw [if_neg (by omega), if_neg (by omega)]

/-- Claim C9: for every valid input the orchestrator returns the label built
by `duration_str` from the overall duration, and that label is
"`H` hours `M` minutes" when `1 ≤ total_hours < 24`, "`M` minutes" when
`total_hours < 1`, and "`total_hours` hours" (minutes dropped) when
`total_hours ≥ 24`, where `total_hours = overall.days × 24 + overall.hours`. -/
theorem duration_label_spec (t1 t2 : Nat) (h : t1 ≤ t2) :
    get_parking_fee t1 t2 = Except.ok
      (duration_str (get_duration t1 t2).1.overall,
       calculate_fee (get_duration t1 t2).1 (get_duration t1 t2).2.1 (get_duration t1 t2).2.2
         (if weekday t1 < 5 then true else false) (if weekday t2 < 5 then true else false)) ∧
    (1 ≤ (get_duration t1 t2).1.overall.days * 24 + ((get_duration t1 t2).1.overall.hours : Int) ∧
        (get_duration t1 t2).1.overall.days * 24 + ((get_duration t1 t2).1.overall.hours : Int) < 24 →
      duration_str (get_duration t1 t2).1.overall =
        toString (get_duration t1 t2).1.overall.hours ++ " hours " ++
          toString (get_duration t1 t2).1.overall.minutes ++ " minutes") ∧
    ((get_duration t1 t2).1.overall.days * 24 + ((get_duration t1 t2).1.overall.hours : Int) < 1 →
      duration_str (get_duration t1 t2).1.overall =
        toString (get_duration t1 t2).1.overall.minutes ++ " minutes") ∧
    (24 ≤ (get_duration t1 t2).1.overall.days * 24 + ((get_duration t1 t2).1.overall.hours : Int) →
      duration_str (get_duration t1 t2).1.overall =
        toString ((get_duration t1 t2).1.overall.days * 24 +
          ((get_duration t1 t2).1.overall.hours : Int)) ++ " hours") := by
  have hpos : ¬ tdDays ((t2 : Int) - (t1 : Int)) < 0 := not_lt.mpr (tdDays_nonneg (by omega))
  have hc := duration_str_cases (get_duration t1 t2).1.overall
  refine ⟨?_, hc.1, hc.2.1, hc.2.2⟩
  simp only [get_parking_fee]
  rw [if_neg hpos]

theorem duration_label_spec_witness :
    get_parking_fee (instant 4 8 16 0 57000) (instant 4 8 27 0 57000) =
      Except.ok ("11 minutes", 0) := by
  have h := (duration_label_spec (instant 4 8 16 0 57000) (instant 4 8 27 0 57000) (by decide)).1
  rw [h]
  have hd : get_duration (instant 4 8 16 0 57000) (instant 4 8 27 0 57000) =
      (⟨⟨0, 0, 11⟩, none, none⟩, 0, 0) := by decide
  rw [hd]
  have hw4 : weekday (instant 4 8 16 0 57000) = 4 := by decide
  have hw4' : weekday (instant 4 8 27 0 57000) = 4 := by decide
  rw [hw4, hw4']
  norm_num [calculate_fee, first_segment_hm, first_day_fee, remaining_fee, elapsed_days_fee,
    tier_fee, grace_fee, cap_at, first_n_hours, grace_period_minutes, free_of_charge_minutes,
    weekday_first_n_hours_rate, weekday_subsequent_hours, weekday_max_charge_per_day,
    weekend_first_n_hours_rate, weekend_subsequent_hours, weekend_max_charge_per_day]
  decide

/-- Claim C10: for `entry = exit` the orchestrator succeeds with the label
`"0 minutes"` and fee `0.0`, the duration dictionary has no
`first_day`/`remaining` entries, and both elapsed-day counts are 0. -/
theorem entry_equals_exit (t : Nat) :
    get_parking_fee t t = Except.ok ("0 minutes", 0) ∧
    get_duration t t = (⟨⟨0, 0, 0⟩, none, none⟩, 0, 0) := by
  have hd : get_duration t t = (⟨⟨0, 0, 0⟩, none, none⟩, 0, 0) := by
    simp only [get_duration, sub_self]
    norm_num [tdDays, tdSeconds, elapsed_counts]
  have hfee : ∀ b1 b2 : Bool,
      calculate_fee ⟨⟨0, 0, 0⟩, none, none⟩ 0 0 b1 b2 = 0 := by
    intro b1 b2
    cases b1 <;> cases b2 <;>
      norm_num [calculate_fee, first_segment_hm, first_day_fee, remaining_fee,
        elapsed_days_fee, tier_fee, grace_fee, cap_at, first_n_hours, grace_period_minutes,
        free_of_charge_minutes, weekday_first_n_hours_rate, weekday_subsequent_hours,
        weekday_max_charge_per_day, weekend_first_n_hours_rate, weekend_subsequent_hours,
        weekend_max_charge_per_day]
  have hnot : ¬ tdDays ((t : Int) - (t : Int)) < 0 := by
    rw [sub_self]
    norm_num [tdDays]
  refine ⟨?_, hd⟩
  simp only [get_parking_fee]
  rw [if_neg hnot, hd, hfee]
  have hstr : duration_str ⟨0, 0, 0⟩ = "0 minutes" := by decide
  rw [hstr]

/-! ### End-to-end multi-day scenario (spec §8 worked example) -/

/-- Claim C1 (counterexample): for entry Monday 08:00 and exit Wednesday
10:00 of the same week the orchestrator returns total fee 55.0, not the
claimed 80.0. -/
theorem monday_to_wednesday_fee_not_80 :
    get_parking_fee (instant 0 8 0 0 0) (instant 2 10 0 0 0) =
      Except.ok ("50 hours", 55) ∧ (55 : ℚ) ≠ 80 := by
  constructor
  · have hd : get_duration (instant 0 8 0 0 0) (instant 2 10 0 0 0) =
        (⟨⟨2, 2, 0⟩, some ⟨16, 1⟩, some ⟨10, 0⟩⟩, 1, 0) := by decide
    have hw1 : weekday (instant 0 8 0 0 0) = 0 := by decide
    have hw2 : weekday (instant 2 10 0 0 0) = 2 := by decide
    simp only [get_parking_fee, hd, hw1, hw2]
    rw [if_neg (by decide)]
    norm_num [calculate_fee, first_segment_hm, first_day_fee, remaining_fee, elapsed_days_fee,
      tier_fee, grace_fee, cap_at, first_n_hours, grace_period_minutes, free_of_charge_minutes,
      weekday_first_n_hours_rate, weekday_subsequent_hours, weekday_max_charge_per_day,
      weekend_first_n_hours_rate, weekend_subsequent_hours, weekend_max_charge_per_day]
    decide
  · norm_num

/-- Claim C1 (amended): for entry Monday 08:00 and exit Wednesday 10:00 the
code counts one fully-elapsed day (Tuesday, a weekday, billed at the 20.0
cap), prices the first-day segment (16h01m against 00:01 of Tuesday) capped
at 20.0 and the remaining segment as 10 × 1.5 = 15.0 (below its 20.0 cap),
for a total fee of 55.0. -/
theorem monday_to_wednesday_fee_is_55 :
    get_duration (instant 0 8 0 0 0) (instant 2 10 0 0 0) =
      (⟨⟨2, 2, 0⟩, some ⟨16, 1⟩, some ⟨10, 0⟩⟩, 1, 0) ∧
    elapsed_days_fee 1 0 = 20 ∧
    first_day_fee true 16 1 = 20 ∧
    remaining_fee true (some ⟨10, 0⟩) = 15 ∧
    get_parking_fee (instant 0 8 0 0 0) (instant 2 10 0 0 0) =
      Except.ok ("50 hours", 55) := by
  refine ⟨by decide, ?_, ?_, ?_, ?_⟩
  · norm_num [elapsed_days_fee, weekday_max_charge_per_day, weekend_max_charge_per_day]
  · norm_num [first_day_fee, tier_fee, grace_fee, cap_at, first_n_hours,
      grace_period_minutes, free_of_charge_minutes, weekday_first_n_hours_rate,
      weekday_subsequent_hours, weekday_max_charge_per_day]
  · norm_num [remaining_fee, grace_fee, cap_at, grace_period_minutes,
      weekday_subsequent_hours, weekday_max_charge_per_day]
  · have hd : get_duration (instant 0 8 0 0 0) (instant 2 10 0 0 0) =
        (⟨⟨2, 2, 0⟩, some ⟨16, 1⟩, some ⟨10, 0⟩⟩, 1, 0) := by decide
    have hw1 : weekday (instant 0 8 0 0 0) = 0 := by decide
    have hw2 : weekday (instant 2 10 0 0 0) = 2 := by decide
    simp only [get_parking_fee, hd, hw1, hw2]
    rw [if_neg (by decide)]
    norm_num [calculate_fee, first_segment_hm, first_day_fee, remaining_fee, elapsed_days_fee,
      tier_fee, grace_fee, cap_at, first_n_hours, grace_period_minutes, free_of_charge_minutes,
      weekday_first_n_hours_rate, weekday_subsequent_hours, weekday_max_charge_per_day,
      weekend_first_n_hours_rate, weekend_subsequent_hours, weekend_max_charge_per_day]
    decide

/-- Claim C2: the `first_day` entry is computed against 00:01 (not 00:00) of
the day after entry: for entry Monday 08:16:00.000000 and exit Tuesday
10:00 the code yields 15h45m, whereas the difference to the next midnight,
truncated to whole minutes, is 15h44m. -/
theorem first_day_measured_against_00_01 :
    (get_duration (instant 0 8 16 0 0) (instant 1 10 0 0 0)).1.first_day =
      some ⟨15, 45⟩ ∧
    (⟨tdSeconds ((usPerDay : Int) - ((instant 0 8 16 0 0 : Nat) : Int)) / 3600,
      tdSeconds ((usPerDay : Int) - ((instant 0 8 16 0 0 : Nat) : Int)) % 3600 / 60⟩ :
        DurationHM) = ⟨15, 44⟩ ∧
    (some (⟨15, 45⟩ : DurationHM) ≠ some (⟨15, 44⟩ : DurationHM)) := by
  refine ⟨by decide, by decide, by decide⟩

end ParkingRate
